import Mathlib

/-!
Verification of the MyChat server (`server.js`).

The server keeps three pieces of state:
  * `db.users`  : a JSON object mapping username to `{password, userCode, contacts}`,
  * `db.chats`  : a JSON object mapping a canonical chat key to an array of messages,
  * `clients`   : a `Map` from user code to the live WebSocket connection.

JSON objects and `Map`s are embedded as association lists with unique keys
(JS objects and Maps cannot hold duplicate keys; insertion order is preserved,
updates replace the entry in place, and fresh keys are appended at the end).
Live connections are identified by a `Nat` handle.  Each message handler is a
pure function from the state (plus the payload and, where the JS code consults
`uuidv4()` or `new Date()`, explicit parameters standing for those fresh
values) to the new state together with the ordered list of side effects it
performs (`ws.send` calls and `saveDatabase()` calls).
-/

namespace MyChat

/-- A chat message as constructed by `handleSendMessage` and stored in
`db.chats`: `{id, sender, receiver, text, timestamp, read}`. -/
structure Message where
  id : String
  sender : String
  receiver : String
  text : String
  timestamp : String
  read : Bool
deriving Repr, DecidableEq

/-- An account record as stored in `db.users`: `{password, userCode, contacts}`. -/
structure User where
  password : String
  userCode : String
  contacts : List String
deriving Repr, DecidableEq

/-- The persistent store `db` (`db.json`): users keyed by username, chats keyed
by the canonical chat key. -/
structure DB where
  users : List (String × User)
  chats : List (String × List Message)
deriving Repr, DecidableEq

/-- The connection registry `clients : Map userCode -> ws`; connections are
identified by `Nat` handles. -/
abbrev Clients := List (String × Nat)

/-- Reading `m[k]` on a JS object / `Map.get`: the value at the first (unique)
entry with key `k`. -/
def objGet {α : Type} (m : List (String × α)) (k : String) : Option α :=
  match m with
  | [] => none
  | (k1, v1) :: rest => if k1 = k then some v1 else objGet rest k

/-- Writing `m[k] = v` on a JS object / `Map.set`: replace the entry with key
`k` in place, or append a fresh entry. -/
def objSet {α : Type} (m : List (String × α)) (k : String) (v : α) :
    List (String × α) :=
  match m with
  | [] => [(k, v)]
  | (k1, v1) :: rest => if k1 = k then (k, v) :: rest else (k1, v1) :: objSet rest k v

/-- The `Map.delete(k)` operation: remove the (unique) entry with key `k`. -/
def mapDelete {α : Type} (m : List (String × α)) (k : String) :
    List (String × α) :=
  match m with
  | [] => []
  | (k1, v1) :: rest => if k1 = k then rest else (k1, v1) :: mapDelete rest k

/-- Keys of a JS object / Map are pairwise distinct; representation invariant
of the association-list embedding. -/
def keysNodup {α : Type} (m : List (String × α)) : Prop :=
  (m.map Prod.fst).Nodup

instance {α : Type} (m : List (String × α)) : Decidable (keysNodup m) := by
  unfold keysNodup; infer_instance

/-- Lexicographic code-unit comparison used by the default JS `Array.sort`
comparator on strings: true when the first string sorts no later than the
second. -/
def jsStrLeb : List Char → List Char → Bool
  | [], _ => true
  | _ :: _, [] => false
  | a :: as, b :: bs =>
      if a.toNat < b.toNat then true
      else if b.toNat < a.toNat then false
      else jsStrLeb as bs

/-- The canonical conversation key: `getChatKey(a, b) = [a, b].sort().join("-")`,
order independent in the two codes. -/
def getChatKey (userCode1 userCode2 : String) : String :=
  if jsStrLeb userCode1.data userCode2.data then userCode1 ++ "-" ++ userCode2
  else userCode2 ++ "-" ++ userCode1

/-- The lookup `Object.keys(db.users).find(u => db.users[u].userCode === code)`
paired with the subsequent `db.users[username]` read: the first account entry whose
`userCode` field is `code` (object keys are unique, so the two-step JS lookup
returns exactly this entry). -/
def findUserByCode (users : List (String × User)) (code : String) :
    Option (String × User) :=
  match users with
  | [] => none
  | (name, u) :: rest =>
      if u.userCode = code then some (name, u) else findUserByCode rest code

/-- One row of the contact-list snapshot built by `sendContactListUpdate`. -/
structure ContactDetail where
  username : String
  userCode : String
  isOnline : Bool
  unreadCount : Nat
deriving Repr, DecidableEq

/-- The envelopes the server sends (`{type, payload}`).  `addContactError` is
modelled from the spec: the interface table in the spec lists an
`addContactError{message}` failure envelope for `addContact`, but no code in
`server.js` produces it; it is included so that statements about it can be
expressed. -/
inductive Event where
  | errorEv (message : String)
  | signupSuccess (userCode : String)
  | loginSuccess (username userCode : String)
  | contactList (details : List ContactDetail)
  | chatHistory (messages : List Message) (withUser : String) (isOnline : Bool)
  | newMessage (message : Message)
  | messageSent (message : Message)
  | typingEv (typer : String)
  | readReceipt (messageId reader : String)
  | onlineStatus (userCode : String) (isOnline : Bool)
  | addContactError (message : String)
deriving Repr, DecidableEq

/-- A side effect of a handler, in execution order: a `ws.send` to a
connection, or a `saveDatabase()` call recording the store it wrote. -/
inductive Effect where
  | send (conn : Nat) (ev : Event)
  | save (db : DB)
deriving Repr, DecidableEq

/-- The retry loop of `generateUserCode`: candidates are the successive values
of `Math.random().toString(36).substring(2, 8).toUpperCase()`; the loop keeps
generating until the candidate collides with no existing code.  `none` means
the supplied candidate stream was exhausted (the JS loop would keep running). -/
def pickFreshCode (existing : List String) (candidates : List String) :
    Option String :=
  match candidates with
  | [] => none
  | c :: rest => if c ∈ existing then pickFreshCode existing rest else some c

/-- The `generateUserCode()` function: retry over the candidate stream against
the set `Object.values(db.users).map(u => u.userCode)`. -/
def generateUserCode (db : DB) (candidates : List String) : Option String :=
  pickFreshCode (db.users.map (fun p => p.2.userCode)) candidates

/-- The unread filter of `sendContactListUpdate`:
`chat.filter(m => m.receiver === userCode && !m.read).length`. -/
def unreadCount (chat : List Message) (userCode : String) : Nat :=
  (chat.filter (fun m => m.receiver == userCode && !m.read)).length

/-- The row `sendContactListUpdate` builds for one `contactCode` of `userCode`
(`null` when no account carries that code, filtered out by
`.filter(Boolean)`). -/
def contactDetail (db : DB) (clients : Clients) (userCode contactCode : String) :
    Option ContactDetail :=
  match findUserByCode db.users contactCode with
  | none => none
  | some (contactUsername, contact) =>
      let chat := (objGet db.chats (getChatKey userCode contactCode)).getD []
      some ⟨contactUsername, contact.userCode,
            (objGet clients contact.userCode).isSome,
            unreadCount chat userCode⟩

/-- The full snapshot: `user.contacts.map(...).filter(Boolean)`. -/
def contactDetails (db : DB) (clients : Clients) (userCode : String)
    (contacts : List String) : List ContactDetail :=
  contacts.filterMap (contactDetail db clients userCode)

/-- The `sendContactListUpdate(userCode)` helper: a single `contactList` push to the
user's own connection, or nothing when the user is offline or the code
resolves to no account. -/
def sendContactListUpdate (db : DB) (clients : Clients) (userCode : String) :
    List Effect :=
  match objGet clients userCode with
  | none => []
  | some conn =>
      match findUserByCode db.users userCode with
      | none => []
      | some (_, user) =>
          [Effect.send conn (Event.contactList
            (contactDetails db clients userCode user.contacts))]

/-- The `broadcastOnlineStatus(userCode, isOnline)` helper: for each contact that is
online, an `onlineStatus` push followed by a refreshed contact list. -/
def broadcastOnlineStatus (db : DB) (clients : Clients) (userCode : String)
    (isOnline : Bool) : List Effect :=
  match findUserByCode db.users userCode with
  | none => []
  | some (_, user) =>
      user.contacts.flatMap (fun contactCode =>
        match objGet clients contactCode with
        | none => []
        | some conn =>
            Effect.send conn (Event.onlineStatus userCode isOnline)
              :: sendContactListUpdate db clients contactCode)

/-- The `handleSignup` handler: reject a taken username, otherwise store
`{password, userCode, contacts: []}`, save, and reply `signupSuccess`.
The connection registry is not consulted or modified (the fresh account is
not authenticated).  When the candidate stream is exhausted the JS retry loop
never returns, so no state change or effect is observable. -/
def handleSignup (db : DB) (ws : Nat) (username password : String)
    (candidates : List String) : DB × List Effect :=
  match objGet db.users username with
  | some _ => (db, [Effect.send ws (Event.errorEv "Username already exists.")])
  | none =>
      match generateUserCode db candidates with
      | none => (db, [])
      | some userCode =>
          let db2 : DB :=
            { db with users := objSet db.users username ⟨password, userCode, []⟩ }
          (db2, [Effect.save db2, Effect.send ws (Event.signupSuccess userCode)])

/-- The `handleSendMessage` handler: build the message from the payload plus the fresh
uuid and the current timestamp, append it to the (lazily created) canonical
conversation, save, push `newMessage` to the receiver when online, and always
acknowledge the sender with `messageSent`.  No field of the payload is
validated. -/
def handleSendMessage (db : DB) (clients : Clients) (ws : Nat)
    (sender receiver text freshId timestamp : String) : DB × List Effect :=
  let message : Message := ⟨freshId, sender, receiver, text, timestamp, false⟩
  let chatKey := getChatKey sender receiver
  let chat := (objGet db.chats chatKey).getD []
  let db2 : DB := { db with chats := objSet db.chats chatKey (chat ++ [message]) }
  let deliver :=
    match objGet clients receiver with
    | some conn => [Effect.send conn (Event.newMessage message)]
    | none => []
  (db2, Effect.save db2 :: deliver ++ [Effect.send ws (Event.messageSent message)])

/-- Set `read := true` on the message `chat.find(m => m.id === messageId)`
found (in place, first match). -/
def markReadFirst (chat : List Message) (messageId : String) : List Message :=
  match chat with
  | [] => []
  | m :: rest =>
      if m.id = messageId then { m with read := true } :: rest
      else m :: markReadFirst rest messageId

/-- The `handleReadMessage` handler: locate the conversation by canonical key and the
message by id; only if it is currently unread, flip `read`, save, and notify
the sender with a `readReceipt` when online.  Every other case is a silent
no-op. -/
def handleReadMessage (db : DB) (clients : Clients)
    (reader messageId messageSender : String) : DB × List Effect :=
  let chatKey := getChatKey reader messageSender
  match objGet db.chats chatKey with
  | none => (db, [])
  | some chat =>
      match chat.find? (fun m => m.id == messageId) with
      | none => (db, [])
      | some m =>
          if m.read then (db, [])
          else
            let db2 : DB :=
              { db with chats := objSet db.chats chatKey (markReadFirst chat messageId) }
            let notify :=
              match objGet clients messageSender with
              | some conn => [Effect.send conn (Event.readReceipt messageId reader)]
              | none => []
            (db2, Effect.save db2 :: notify)

/-- The `handleAddContact` handler: validate that the target code exists and is not the
requester's own code; push the edge onto whichever of the two contact arrays
lacks it; save; refresh both parties' contact lists (the adder refresh itself
bails out when the adder is offline).  When the adder's own code resolves to
no account the JS code throws (`db.users[undefined].contacts`) before any
mutation and the dispatcher's catch block replies with the generic parse
error. -/
def handleAddContact (db : DB) (clients : Clients) (ws : Nat)
    (adderUserCode targetUserCode : String) : DB × List Effect :=
  match findUserByCode db.users targetUserCode with
  | none =>
      (db, [Effect.send ws (Event.errorEv "User with that code does not exist.")])
  | some (targetUsername, _) =>
      if adderUserCode = targetUserCode then
        (db, [Effect.send ws (Event.errorEv "You cannot add yourself as a contact.")])
      else
        match findUserByCode db.users adderUserCode with
        | none => (db, [Effect.send ws (Event.errorEv "Invalid message format.")])
        | some (adderUsername, adderUser) =>
            let users1 :=
              if targetUserCode ∈ adderUser.contacts then db.users
              else objSet db.users adderUsername
                { adderUser with contacts := adderUser.contacts ++ [targetUserCode] }
            match objGet users1 targetUsername with
            | none =>
                ({ db with users := users1 },
                 [Effect.send ws (Event.errorEv "Invalid message format.")])
            | some targetUser =>
                let users2 :=
                  if adderUserCode ∈ targetUser.contacts then users1
                  else objSet users1 targetUsername
                    { targetUser with contacts := targetUser.contacts ++ [adderUserCode] }
                let db2 : DB := { db with users := users2 }
                let eff1 := sendContactListUpdate db2 clients adderUserCode
                let eff2 :=
                  match objGet clients targetUserCode with
                  | some _ => sendContactListUpdate db2 clients targetUserCode
                  | none => []
                (db2, Effect.save db2 :: eff1 ++ eff2)

/-- The `ws.on("close")` handler: scan `clients.entries()` in insertion order
for the first entry whose value is this connection; delete it and broadcast
`online = false`; `break` after the first hit.  A connection bound to no code
(or whose bindings were all superseded) removes nothing. -/
def handleClose (db : DB) (clients : Clients) (conn : Nat) :
    Clients × List Effect :=
  match clients.find? (fun p => p.2 == conn) with
  | none => (clients, [])
  | some (userCode, _) =>
      let clients2 := mapDelete clients userCode
      (clients2, broadcastOnlineStatus db clients2 userCode false)

/-- Recogniser for an `onlineStatus` push among the effects of a handler. -/
def isOnlineStatusSend (e : Effect) : Bool :=
  match e with
  | Effect.send _ (Event.onlineStatus _ _) => true
  | _ => false

/-! ### Association-list lemmas

Basic facts about the JS-object / `Map` embedding. -/

theorem objGet_objSet_self {α : Type} (m : List (String × α)) (k : String) (v : α) :
    objGet (objSet m k v) k = some v := by
  induction m with
  | nil => simp [objGet, objSet]
  | cons p rest ih =>
      obtain ⟨k1, v1⟩ := p
      by_cases h : k1 = k
      · subst h; simp [objGet, objSet]
      · simp [objGet, objSet, h, ih]

theorem objGet_objSet_ne {α : Type} (m : List (String × α)) (k k1 : String) (v : α)
    (h : k1 ≠ k) : objGet (objSet m k v) k1 = objGet m k1 := by
  induction m with
  | nil => simp [objGet, objSet, Ne.symm h]
  | cons p rest ih =>
      obtain ⟨k0, v0⟩ := p
      by_cases h0 : k0 = k
      · subst h0
        simp [objGet, objSet, Ne.symm h]
      · by_cases h1 : k0 = k1
        · subst h1; simp [objGet, objSet, h0]
        · simp [objGet, objSet, h0, h1, ih]

theorem objSet_eq_self {α : Type} {m : List (String × α)} {k : String} {v : α}
    (h : objGet m k = some v) : objSet m k v = m := by
  induction m with
  | nil => simp [objGet] at h
  | cons p rest ih =>
      obtain ⟨k0, v0⟩ := p
      by_cases h0 : k0 = k
      · subst h0
        simp [objGet] at h
        simp [objSet, h]
      · simp [objGet, h0] at h
        simp [objSet, h0, ih h]

theorem objGet_eq_none_of_not_mem {α : Type} {m : List (String × α)} {k : String}
    (h : k ∉ m.map Prod.fst) : objGet m k = none := by
  induction m with
  | nil => rfl
  | cons p rest ih =>
      obtain ⟨k0, v0⟩ := p
      simp only [List.map_cons, List.mem_cons] at h
      push_neg at h
      simp [objGet, Ne.symm h.1, ih h.2]

theorem objGet_of_mem {α : Type} {m : List (String × α)} {k : String} {v : α}
    (hnd : keysNodup m) (h : (k, v) ∈ m) : objGet m k = some v := by
  induction m with
  | nil => simp at h
  | cons p rest ih =>
      obtain ⟨k0, v0⟩ := p
      rw [keysNodup, List.map_cons, List.nodup_cons] at hnd
      rcases List.mem_cons.mp h with h1 | h1
      · rw [Prod.mk.injEq] at h1
        simp [objGet, h1.1, h1.2]
      · have hk : k ∈ rest.map Prod.fst := List.mem_map_of_mem Prod.fst h1
        have h0 : k0 ≠ k := fun e => hnd.1 (e ▸ hk)
        simp [objGet, h0, ih hnd.2 h1]

theorem mem_keys_objSet {α : Type} {m : List (String × α)} {k k1 : String} {v : α}
    (h : k1 ∈ (objSet m k v).map Prod.fst) : k1 = k ∨ k1 ∈ m.map Prod.fst := by
  induction m with
  | nil =>
      simp [objSet] at h
      exact Or.inl h
  | cons p rest ih =>
      obtain ⟨k0, v0⟩ := p
      by_cases h0 : k0 = k
      · subst h0
        rw [show objSet ((k0, v0) :: rest) k0 v = (k0, v) :: rest from by
          simp [objSet], List.map_cons] at h
        rcases List.mem_cons.mp h with h | h
        · exact Or.inl h
        · exact Or.inr (by simp [h])
      · rw [show objSet ((k0, v0) :: rest) k v = (k0, v0) :: objSet rest k v from by
          simp [objSet, h0], List.map_cons] at h
        rcases List.mem_cons.mp h with h | h
        · exact Or.inr (by simp [h])
        · rcases ih h with h | h
          · exact Or.inl h
          · exact Or.inr (by simp [h])

theorem keysNodup_objSet {α : Type} {m : List (String × α)} {k : String} {v : α}
    (hnd : keysNodup m) : keysNodup (objSet m k v) := by
  induction m with
  | nil => simp [objSet, keysNodup]
  | cons p rest ih =>
      obtain ⟨k0, v0⟩ := p
      rw [keysNodup, List.map_cons, List.nodup_cons] at hnd
      by_cases h0 : k0 = k
      · subst h0
        have hset : objSet ((k0, v0) :: rest) k0 v = (k0, v) :: rest := by
          simp [objSet]
        rw [keysNodup, hset, List.map_cons, List.nodup_cons]
        exact hnd
      · have hset : objSet ((k0, v0) :: rest) k v = (k0, v0) :: objSet rest k v := by
          simp [objSet, h0]
        rw [keysNodup, hset, List.map_cons, List.nodup_cons]
        refine ⟨fun hmem => ?_, ih hnd.2⟩
        rcases mem_keys_objSet hmem with h | h
        · exact h0 h
        · exact hnd.1 h

theorem mem_objSet {α : Type} {m : List (String × α)} {k : String} {v : α}
    {p : String × α} (h : p ∈ objSet m k v) : p = (k, v) ∨ p ∈ m := by
  induction m with
  | nil =>
      simp [objSet] at h
      exact Or.inl h
  | cons q rest ih =>
      obtain ⟨k0, v0⟩ := q
      by_cases h0 : k0 = k
      · subst h0
        simp only [objSet, if_pos] at h
        rcases List.mem_cons.mp h with h | h
        · exact Or.inl h
        · exact Or.inr (List.mem_cons.mpr (Or.inr h))
      · rw [show objSet ((k0, v0) :: rest) k v = (k0, v0) :: objSet rest k v from by
          simp [objSet, h0]] at h
        rcases List.mem_cons.mp h with h | h
        · exact Or.inr (List.mem_cons.mpr (Or.inl h))
        · rcases ih h with h | h
          · exact Or.inl h
          · exact Or.inr (List.mem_cons.mpr (Or.inr h))

theorem mem_objSet_of_get {α : Type} {m : List (String × α)} {k : String} {w v : α}
    {p : String × α} (hnd : keysNodup m) (hg : objGet m k = some w)
    (h : p ∈ objSet m k v) : p = (k, v) ∨ (p ∈ m ∧ p.1 ≠ k) := by
  induction m with
  | nil => simp [objGet] at hg
  | cons q rest ih =>
      obtain ⟨k0, v0⟩ := q
      rw [keysNodup, List.map_cons, List.nodup_cons] at hnd
      by_cases h0 : k0 = k
      · subst h0
        rw [show objSet ((k0, v0) :: rest) k0 v = (k0, v) :: rest from by
          simp [objSet]] at h
        rcases List.mem_cons.mp h with h | h
        · exact Or.inl h
        · refine Or.inr ⟨List.mem_cons.mpr (Or.inr h), fun e => hnd.1 ?_⟩
          have hp : p.1 ∈ rest.map Prod.fst := List.mem_map_of_mem Prod.fst h
          rw [e] at hp
          exact hp
      · rw [show objGet ((k0, v0) :: rest) k = objGet rest k from by
          simp [objGet, h0]] at hg
        rw [show objSet ((k0, v0) :: rest) k v = (k0, v0) :: objSet rest k v from by
          simp [objSet, h0]] at h
        rcases List.mem_cons.mp h with h | h
        · exact Or.inr ⟨List.mem_cons.mpr (Or.inl h), by simp [h, h0]⟩
        · rcases ih hnd.2 hg h with h | h
          · exact Or.inl h
          · exact Or.inr ⟨List.mem_cons.mpr (Or.inr h.1), h.2⟩

theorem findUserByCode_code {users : List (String × User)} {c n : String} {u : User}
    (h : findUserByCode users c = some (n, u)) : u.userCode = c := by
  induction users with
  | nil => simp [findUserByCode] at h
  | cons p rest ih =>
      obtain ⟨n0, u0⟩ := p
      by_cases h0 : u0.userCode = c
      · rw [show findUserByCode ((n0, u0) :: rest) c = some (n0, u0) from by
          simp [findUserByCode, h0]] at h
        obtain ⟨h1, h2⟩ := Prod.mk.injEq .. ▸ Option.some.injEq .. ▸ h
        exact h2 ▸ h0
      · rw [show findUserByCode ((n0, u0) :: rest) c = findUserByCode rest c from by
          simp [findUserByCode, h0]] at h
        exact ih h

theorem findUserByCode_mem {users : List (String × User)} {c n : String} {u : User}
    (h : findUserByCode users c = some (n, u)) : (n, u) ∈ users := by
  induction users with
  | nil => simp [findUserByCode] at h
  | cons p rest ih =>
      obtain ⟨n0, u0⟩ := p
      by_cases h0 : u0.userCode = c
      · rw [show findUserByCode ((n0, u0) :: rest) c = some (n0, u0) from by
          simp [findUserByCode, h0]] at h
        simp at h
        simp [h.1, h.2]
      · rw [show findUserByCode ((n0, u0) :: rest) c = findUserByCode rest c from by
          simp [findUserByCode, h0]] at h
        exact List.mem_cons.mpr (Or.inr (ih h))

theorem findUserByCode_objSet_found {m : List (String × User)} {c k : String}
    {u v : User} (hnd : keysNodup m) (hf : findUserByCode m c = some (k, u))
    (hv : v.userCode = c) : findUserByCode (objSet m k v) c = some (k, v) := by
  induction m with
  | nil => simp [findUserByCode] at hf
  | cons p rest ih =>
      obtain ⟨n0, u0⟩ := p
      rw [keysNodup, List.map_cons, List.nodup_cons] at hnd
      by_cases h0 : u0.userCode = c
      · rw [show findUserByCode ((n0, u0) :: rest) c = some (n0, u0) from by
          simp [findUserByCode, h0]] at hf
        simp at hf
        obtain ⟨hk, hu⟩ := hf
        subst hk
        rw [show objSet ((n0, u0) :: rest) n0 v = (n0, v) :: rest from by
          simp [objSet]]
        simp [findUserByCode, hv]
      · rw [show findUserByCode ((n0, u0) :: rest) c = findUserByCode rest c from by
          simp [findUserByCode, h0]] at hf
        have hk : k ∈ rest.map Prod.fst :=
          List.mem_map_of_mem Prod.fst (findUserByCode_mem hf)
        have hne : n0 ≠ k := fun e => hnd.1 (e ▸ hk)
        rw [show objSet ((n0, u0) :: rest) k v = (n0, u0) :: objSet rest k v from by
          simp [objSet, hne]]
        rw [show findUserByCode ((n0, u0) :: objSet rest k v) c =
            findUserByCode (objSet rest k v) c from by simp [findUserByCode, h0]]
        exact ih hnd.2 hf

theorem findUserByCode_objSet_preserve {m : List (String × User)} {c k1 : String}
    {w v : User} (hg : objGet m k1 = some w) (hw : w.userCode ≠ c)
    (hv : v.userCode ≠ c) :
    findUserByCode (objSet m k1 v) c = findUserByCode m c := by
  induction m with
  | nil => simp [objGet] at hg
  | cons p rest ih =>
      obtain ⟨n0, u0⟩ := p
      by_cases h0 : n0 = k1
      · subst h0
        rw [show objGet ((n0, u0) :: rest) n0 = some u0 from by simp [objGet]] at hg
        have hu0 : u0 = w := Option.some.injEq .. ▸ hg
        subst hu0
        rw [show objSet ((n0, u0) :: rest) n0 v = (n0, v) :: rest from by
          simp [objSet]]
        rw [show findUserByCode ((n0, v) :: rest) c = findUserByCode rest c from by
          simp [findUserByCode, hv]]
        rw [show findUserByCode ((n0, u0) :: rest) c = findUserByCode rest c from by
          simp [findUserByCode, hw]]
      · rw [show objGet ((n0, u0) :: rest) k1 = objGet rest k1 from by
          simp [objGet, h0]] at hg
        rw [show objSet ((n0, u0) :: rest) k1 v = (n0, u0) :: objSet rest k1 v from by
          simp [objSet, h0]]
        by_cases h1 : u0.userCode = c
        · rw [show findUserByCode ((n0, u0) :: objSet rest k1 v) c = some (n0, u0) from by
            simp [findUserByCode, h1]]
          rw [show findUserByCode ((n0, u0) :: rest) c = some (n0, u0) from by
            simp [findUserByCode, h1]]
        · rw [show findUserByCode ((n0, u0) :: objSet rest k1 v) c =
              findUserByCode (objSet rest k1 v) c from by simp [findUserByCode, h1]]
          rw [show findUserByCode ((n0, u0) :: rest) c = findUserByCode rest c from by
            simp [findUserByCode, h1]]
          exact ih hg

theorem objGet_mapDelete_self {α : Type} {m : List (String × α)} {k : String}
    (hnd : keysNodup m) : objGet (mapDelete m k) k = none := by
  induction m with
  | nil => rfl
  | cons p rest ih =>
      obtain ⟨k0, v0⟩ := p
      rw [keysNodup, List.map_cons, List.nodup_cons] at hnd
      by_cases h0 : k0 = k
      · subst h0
        rw [show mapDelete ((k0, v0) :: rest) k0 = rest from by simp [mapDelete]]
        exact objGet_eq_none_of_not_mem hnd.1
      · rw [show mapDelete ((k0, v0) :: rest) k = (k0, v0) :: mapDelete rest k from by
          simp [mapDelete, h0]]
        rw [show objGet ((k0, v0) :: mapDelete rest k) k = objGet (mapDelete rest k) k
          from by simp [objGet, h0]]
        exact ih hnd.2

theorem find?_markReadFirst {chat : List Message} {i : String} {m0 : Message}
    (h : chat.find? (fun m => m.id == i) = some m0) :
    (markReadFirst chat i).find? (fun m => m.id == i) =
      some { m0 with read := true } := by
  induction chat with
  | nil => simp at h
  | cons m1 rest ih =>
      by_cases h1 : m1.id = i
      · rw [List.find?_cons_of_pos _ (by simp [h1])] at h
        have hm : m1 = m0 := Option.some.injEq .. ▸ h
        subst hm
        rw [show markReadFirst (m1 :: rest) i = { m1 with read := true } :: rest from by
          simp [markReadFirst, h1]]
        exact List.find?_cons_of_pos _ (by simp [h1])
      · rw [List.find?_cons_of_neg _ (by simp [h1])] at h
        rw [show markReadFirst (m1 :: rest) i = m1 :: markReadFirst rest i from by
          simp [markReadFirst, h1]]
        rw [List.find?_cons_of_neg _ (by simp [h1])]
        exact ih h

theorem jsStrLeb_total (as bs : List Char) :
    jsStrLeb as bs = true ∨ jsStrLeb bs as = true := by
  induction as generalizing bs with
  | nil => exact Or.inl rfl
  | cons a as ih =>
      cases bs with
      | nil => exact Or.inr rfl
      | cons b bs =>
          by_cases h1 : a.toNat < b.toNat
          · exact Or.inl (by simp [jsStrLeb, h1])
          · by_cases h2 : b.toNat < a.toNat
            · exact Or.inr (by simp [jsStrLeb, h2])
            · rcases ih bs with h | h
              · exact Or.inl (by simp [jsStrLeb, h1, h2, h])
              · exact Or.inr (by simp [jsStrLeb, h1, h2, h])

theorem jsStrLeb_antisymm {as bs : List Char} (h1 : jsStrLeb as bs = true)
    (h2 : jsStrLeb bs as = true) : as = bs := by
  induction as generalizing bs with
  | nil =>
      cases bs with
      | nil => rfl
      | cons b bs => simp [jsStrLeb] at h2
  | cons a as ih =>
      cases bs with
      | nil => simp [jsStrLeb] at h1
      | cons b bs =>
          by_cases hab : a.toNat < b.toNat
          · simp [jsStrLeb, hab, Nat.lt_asymm hab] at h2
          · by_cases hba : b.toNat < a.toNat
            · simp [jsStrLeb, hab, hba] at h1
            · have heq : a = b := Char.eq_of_val_eq (UInt32.ext
                (Nat.le_antisymm (Nat.le_of_not_lt hba) (Nat.le_of_not_lt hab)))
              subst heq
              simp only [jsStrLeb, Nat.lt_irrefl, if_false] at h1 h2
              rw [ih h1 h2]

theorem getChatKey_comm (a b : String) : getChatKey a b = getChatKey b a := by
  unfold getChatKey
  cases h1 : jsStrLeb a.data b.data with
  | true =>
      cases h2 : jsStrLeb b.data a.data with
      | true => rw [String.ext (jsStrLeb_antisymm h1 h2)]
      | false => simp
  | false =>
      cases h2 : jsStrLeb b.data a.data with
      | true => simp
      | false =>
          rcases jsStrLeb_total a.data b.data with h | h
          · rw [h1] at h; exact absurd h (by simp)
          · rw [h2] at h; exact absurd h (by simp)

theorem countP_onlineStatus_contactList (db : DB) (clients : Clients) (c : String) :
    (sendContactListUpdate db clients c).countP isOnlineStatusSend = 0 := by
  unfold sendContactListUpdate
  cases hx : objGet clients c with
  | none => rfl
  | some conn =>
      cases hy : findUserByCode db.users c with
      | none => rfl
      | some p =>
          obtain ⟨n, u⟩ := p
          simp [List.countP_cons, isOnlineStatusSend]

theorem countP_onlineStatus_broadcast {db : DB} (clients : Clients) {code n : String}
    {u : User} (b : Bool) (hf : findUserByCode db.users code = some (n, u)) :
    (broadcastOnlineStatus db clients code b).countP isOnlineStatusSend =
      (u.contacts.filter (fun c => (objGet clients c).isSome)).length := by
  have hb : broadcastOnlineStatus db clients code b =
      u.contacts.flatMap (fun contactCode =>
        match objGet clients contactCode with
        | none => []
        | some conn =>
            Effect.send conn (Event.onlineStatus code b)
              :: sendContactListUpdate db clients contactCode) := by
    simp [broadcastOnlineStatus, hf]
  rw [hb]
  generalize u.contacts = l
  induction l with
  | nil => rfl
  | cons c cs ih =>
      rw [List.flatMap_cons, List.countP_append, List.filter_cons]
      cases hg : objGet clients c with
      | none => simpa using ih
      | some conn =>
          simp only [List.countP_cons, countP_onlineStatus_contactList,
            isOnlineStatusSend, Option.isSome_some, if_true, ih]
          simp [Nat.add_comm]

theorem onlineStatus_mem_broadcast {db : DB} {clients : Clients} {code n c : String}
    {u : User} {conn : Nat} (b : Bool)
    (hf : findUserByCode db.users code = some (n, u)) (hc : c ∈ u.contacts)
    (hg : objGet clients c = some conn) :
    Effect.send conn (Event.onlineStatus code b) ∈
      broadcastOnlineStatus db clients code b := by
  have hb : broadcastOnlineStatus db clients code b =
      u.contacts.flatMap (fun contactCode =>
        match objGet clients contactCode with
        | none => []
        | some conn2 =>
            Effect.send conn2 (Event.onlineStatus code b)
              :: sendContactListUpdate db clients contactCode) := by
    simp [broadcastOnlineStatus, hf]
  rw [hb]
  refine List.mem_flatMap.mpr ⟨c, hc, ?_⟩
  simp [hg]

/-! ### Claim theorems -/

/-- C1: for every `sendMessage` with sender `A`, receiver `B` and text `t`,
`handleSendMessage` constructs the message from the fresh id and the current
timestamp with `read = false`, appends it to the conversation stored under the
canonical (order-independent) key of `(A, B)`, persists the store before any
send, then sends a `newMessage` event carrying that message to `B`'s
connection if and only if `B` is present in the connection registry, and in
every case sends a `messageSent` acknowledgement carrying the same message to
the sender's connection (as the final effect). -/
theorem sendMessage_routing_spec (db : DB) (clients : Clients) (ws : Nat)
    (sender receiver text freshId timestamp : String) :
    getChatKey sender receiver = getChatKey receiver sender ∧
    (handleSendMessage db clients ws sender receiver text freshId timestamp).1 =
      { db with chats := (objSet db.chats (getChatKey sender receiver)
          (((objGet db.chats (getChatKey sender receiver)).getD []) ++
            [⟨freshId, sender, receiver, text, timestamp, false⟩])) } ∧
    (handleSendMessage db clients ws sender receiver text freshId timestamp).2 =
      Effect.save
          (handleSendMessage db clients ws sender receiver text freshId timestamp).1 ::
        ((match objGet clients receiver with
          | some conn => [Effect.send conn
              (Event.newMessage ⟨freshId, sender, receiver, text, timestamp, false⟩)]
          | none => []) ++
         [Effect.send ws
            (Event.messageSent ⟨freshId, sender, receiver, text, timestamp, false⟩)]) ∧
    ((∃ conn, objGet clients receiver = some conn) ↔
      ∃ conn, Effect.send conn
          (Event.newMessage ⟨freshId, sender, receiver, text, timestamp, false⟩) ∈
        (handleSendMessage db clients ws sender receiver text freshId timestamp).2) := by
  refine ⟨getChatKey_comm sender receiver, rfl, rfl, ?_, ?_⟩
  · rintro ⟨conn, hc⟩
    exact ⟨conn, by simp [handleSendMessage, hc]⟩
  · rintro ⟨conn, hmem⟩
    cases hg : objGet clients receiver with
    | some c => exact ⟨c, rfl⟩
    | none => simp [handleSendMessage, hg] at hmem

/-- C9: `handleSendMessage` performs no validation of its payload: for every
sender and receiver code (existing or not, contacts or not, equal or not, and
regardless of the submitting connection) it never emits an error event, it
creates the conversation lazily when the canonical key is absent, appends the
message, persists the new store, and acknowledges the sender with
`messageSent`. -/
theorem sendMessage_no_validation (db : DB) (clients : Clients) (ws : Nat)
    (sender receiver text freshId timestamp : String) :
    (∀ c msg, Effect.send c (Event.errorEv msg) ∉
      (handleSendMessage db clients ws sender receiver text freshId timestamp).2) ∧
    (objGet db.chats (getChatKey sender receiver) = none →
      objGet ((handleSendMessage db clients ws sender receiver text freshId
          timestamp).1).chats (getChatKey sender receiver) =
        some [⟨freshId, sender, receiver, text, timestamp, false⟩]) ∧
    Effect.save
        (handleSendMessage db clients ws sender receiver text freshId timestamp).1 ∈
      (handleSendMessage db clients ws sender receiver text freshId timestamp).2 ∧
    Effect.send ws
        (Event.messageSent ⟨freshId, sender, receiver, text, timestamp, false⟩) ∈
      (handleSendMessage db clients ws sender receiver text freshId timestamp).2 := by
  refine ⟨?_, ?_, ?_, ?_⟩
  · intro c msg hmem
    cases hg : objGet clients receiver with
    | some c2 => simp [handleSendMessage, hg] at hmem
    | none => simp [handleSendMessage, hg] at hmem
  · intro h
    have h1 : ((handleSendMessage db clients ws sender receiver text freshId
        timestamp).1).chats =
        objSet db.chats (getChatKey sender receiver)
          [⟨freshId, sender, receiver, text, timestamp, false⟩] := by
      simp [handleSendMessage, h]
    rw [h1]
    exact objGet_objSet_self db.chats (getChatKey sender receiver) _
  · simp [handleSendMessage]
  · cases hg : objGet clients receiver with
    | some c2 => simp [handleSendMessage, hg]
    | none => simp [handleSendMessage, hg]

/-- C10: a `readMessage` whose canonical conversation for (reader, sender)
does not exist, or whose message id matches nothing in that conversation, is a
silent no-op: the store is unchanged, nothing is persisted, and no event of
any kind (neither a `readReceipt` nor an error) is sent. -/
theorem readMessage_missing_noop (db : DB) (clients : Clients)
    (reader messageId messageSender : String)
    (h : objGet db.chats (getChatKey reader messageSender) = none ∨
      ∃ chat, objGet db.chats (getChatKey reader messageSender) = some chat ∧
        chat.find? (fun m => m.id == messageId) = none) :
    handleReadMessage db clients reader messageId messageSender = (db, []) := by
  rcases h with h | ⟨chat, h1, h2⟩
  · simp [handleReadMessage, h]
  · simp [handleReadMessage, h1, h2]

/-- Witness for C10 at a concrete state with no conversations at all. -/
theorem readMessage_missing_noop_witness :
    handleReadMessage ⟨[], []⟩ [] "AAAAAA" "id1" "BBBBBB" = (⟨[], []⟩, []) :=
  readMessage_missing_noop ⟨[], []⟩ [] "AAAAAA" "id1" "BBBBBB" (Or.inl rfl)

/-- C3: a `readMessage` for a message that exists in the canonical
conversation of (reader, sender) and is currently unread flips its `read` flag
to true, persists the store, and pushes exactly one `readReceipt` carrying the
message id to the sender's connection precisely when the sender is online; a
second `readMessage` for the same id changes no state and produces no further
effect, so the transition is one-way and marking read twice yields exactly one
read receipt. -/
theorem readMessage_read_once (db : DB) (clients : Clients)
    (reader messageId messageSender : String) (chat : List Message) (m : Message)
    (hchat : objGet db.chats (getChatKey reader messageSender) = some chat)
    (hfind : chat.find? (fun x => x.id == messageId) = some m)
    (hunread : m.read = false) :
    (handleReadMessage db clients reader messageId messageSender).1 =
      { db with chats := (objSet db.chats (getChatKey reader messageSender)
          (markReadFirst chat messageId)) } ∧
    (markReadFirst chat messageId).find? (fun x => x.id == messageId) =
      some { m with read := true } ∧
    (handleReadMessage db clients reader messageId messageSender).2 =
      Effect.save (handleReadMessage db clients reader messageId messageSender).1 ::
        (match objGet clients messageSender with
         | some conn => [Effect.send conn (Event.readReceipt messageId reader)]
         | none => []) ∧
    handleReadMessage (handleReadMessage db clients reader messageId messageSender).1
        clients reader messageId messageSender =
      ((handleReadMessage db clients reader messageId messageSender).1, []) := by
  have h1 : (handleReadMessage db clients reader messageId messageSender).1 =
      { db with chats := (objSet db.chats (getChatKey reader messageSender)
        (markReadFirst chat messageId)) } := by
    simp [handleReadMessage, hchat, hfind, hunread]
  refine ⟨h1, find?_markReadFirst hfind, ?_, ?_⟩
  · simp [handleReadMessage, hchat, hfind, hunread]
  · rw [h1]
    have h2 : objGet (objSet db.chats (getChatKey reader messageSender)
        (markReadFirst chat messageId)) (getChatKey reader messageSender) =
        some (markReadFirst chat messageId) :=
      objGet_objSet_self db.chats (getChatKey reader messageSender) _
    simp [handleReadMessage, h2, find?_markReadFirst hfind]

/-- Witness for C3 at a concrete store holding one unread message. -/
theorem readMessage_read_once_witness :
    (handleReadMessage
        ⟨[], [("A-B", [⟨"id1", "B", "A", "hi", "t0", false⟩])]⟩ [("B", 2)]
        "A" "id1" "B").1 =
      { users := ([] : List (String × User)),
        chats := (objSet [("A-B", [⟨"id1", "B", "A", "hi", "t0", false⟩])]
          (getChatKey "A" "B")
          (markReadFirst [⟨"id1", "B", "A", "hi", "t0", false⟩] "id1")) } ∧
    (markReadFirst [⟨"id1", "B", "A", "hi", "t0", false⟩] "id1").find?
        (fun x => x.id == "id1") =
      some ⟨"id1", "B", "A", "hi", "t0", true⟩ ∧
    (handleReadMessage
        ⟨[], [("A-B", [⟨"id1", "B", "A", "hi", "t0", false⟩])]⟩ [("B", 2)]
        "A" "id1" "B").2 =
      Effect.save (handleReadMessage
          ⟨[], [("A-B", [⟨"id1", "B", "A", "hi", "t0", false⟩])]⟩ [("B", 2)]
          "A" "id1" "B").1 ::
        (match objGet [("B", 2)] "B" with
         | some conn => [Effect.send conn (Event.readReceipt "id1" "A")]
         | none => []) ∧
    handleReadMessage (handleReadMessage
        ⟨[], [("A-B", [⟨"id1", "B", "A", "hi", "t0", false⟩])]⟩ [("B", 2)]
        "A" "id1" "B").1 [("B", 2)] "A" "id1" "B" =
      ((handleReadMessage
          ⟨[], [("A-B", [⟨"id1", "B", "A", "hi", "t0", false⟩])]⟩ [("B", 2)]
          "A" "id1" "B").1, []) :=
  readMessage_read_once
    ⟨[], [("A-B", [⟨"id1", "B", "A", "hi", "t0", false⟩])]⟩ [("B", 2)]
    "A" "id1" "B" [⟨"id1", "B", "A", "hi", "t0", false⟩]
    ⟨"id1", "B", "A", "hi", "t0", false⟩ (by decide) (by decide) rfl

/-- C8 counterexample: the server does not reject an empty-text `sendMessage`.
At a concrete empty store, `handleSendMessage` with text `""` constructs and
appends a message and emits a `messageSent` acknowledgement, contradicting the
claim that nothing is appended and no event is emitted. -/
theorem sendMessage_empty_text_not_rejected :
    ((handleSendMessage ⟨[], []⟩ [] 3 "A" "B" "" "id1" "t1").1).chats =
      [("A-B", [⟨"id1", "A", "B", "", "t1", false⟩])] ∧
    Effect.send 3 (Event.messageSent ⟨"id1", "A", "B", "", "t1", false⟩) ∈
      (handleSendMessage ⟨[], []⟩ [] 3 "A" "B" "" "id1" "t1").2 := by
  decide

/-- C8 (amended): the server applies no empty-text check: a `sendMessage`
whose text is empty is processed exactly like any other message — the message
is constructed with empty text and `read = false`, appended to the canonical
conversation, the store is persisted before the sends, the receiver receives
`newMessage` when online, and the sender is acknowledged with `messageSent`.
(The rejection of empty input happens only in the browser client, which
refuses to submit an empty message.) -/
theorem sendMessage_empty_text_spec (db : DB) (clients : Clients) (ws : Nat)
    (sender receiver freshId timestamp : String) :
    (handleSendMessage db clients ws sender receiver "" freshId timestamp).1 =
      { db with chats := (objSet db.chats (getChatKey sender receiver)
          (((objGet db.chats (getChatKey sender receiver)).getD []) ++
            [⟨freshId, sender, receiver, "", timestamp, false⟩])) } ∧
    (handleSendMessage db clients ws sender receiver "" freshId timestamp).2 =
      Effect.save
          (handleSendMessage db clients ws sender receiver "" freshId timestamp).1 ::
        ((match objGet clients receiver with
          | some conn => [Effect.send conn
              (Event.newMessage ⟨freshId, sender, receiver, "", timestamp, false⟩)]
          | none => []) ++
         [Effect.send ws
            (Event.messageSent ⟨freshId, sender, receiver, "", timestamp, false⟩)]) :=
  ⟨rfl, rfl⟩

/-- C2: for a viewer V online with connection `conn` and any contact C in V's
contact list, the contact-list snapshot pushed to V reports for C an unread
count equal to the number of messages in the conversation under the canonical
key of (V, C) whose receiver is V and whose read flag is false; appending one
new unread message addressed to V through `handleSendMessage` increments that
count by exactly one, and a conversation in which every message addressed to V
is read yields count zero. -/
theorem unread_count_spec (db : DB) (clients : Clients) (conn : Nat)
    (V C vn cn : String) (vu cu : User)
    (honline : objGet clients V = some conn)
    (hv : findUserByCode db.users V = some (vn, vu))
    (hC : C ∈ vu.contacts)
    (hc : findUserByCode db.users C = some (cn, cu)) :
    sendContactListUpdate db clients V =
      [Effect.send conn (Event.contactList (contactDetails db clients V vu.contacts))] ∧
    contactDetail db clients V C =
      some ⟨cn, cu.userCode, (objGet clients cu.userCode).isSome,
            unreadCount ((objGet db.chats (getChatKey V C)).getD []) V⟩ ∧
    (∀ d, contactDetail db clients V C = some d →
      d ∈ contactDetails db clients V vu.contacts) ∧
    (∀ ws text freshId timestamp,
      unreadCount ((objGet ((handleSendMessage db clients ws C V text freshId
          timestamp).1).chats (getChatKey V C)).getD []) V =
        unreadCount ((objGet db.chats (getChatKey V C)).getD []) V + 1) ∧
    (∀ chat : List Message, (∀ m ∈ chat, m.receiver = V → m.read = true) →
      unreadCount chat V = 0) := by
  refine ⟨by simp [sendContactListUpdate, honline, hv], by simp [contactDetail, hc],
    ?_, ?_, ?_⟩
  · intro d hd
    exact List.mem_filterMap.mpr ⟨C, hC, hd⟩
  · intro ws text freshId timestamp
    have hchats : ((handleSendMessage db clients ws C V text freshId
        timestamp).1).chats =
        objSet db.chats (getChatKey C V)
          (((objGet db.chats (getChatKey C V)).getD []) ++
            [⟨freshId, C, V, text, timestamp, false⟩]) := rfl
    rw [hchats, getChatKey_comm C V, objGet_objSet_self]
    simp [unreadCount, List.filter_append]
  · intro chat hall
    rw [unreadCount, List.length_eq_zero]
    apply List.filter_eq_nil_iff.mpr
    intro m hm
    by_cases hr : m.receiver = V
    · simp [hr, hall m hm hr]
    · simp [hr]

/-- Witness for C2 at a two-user store holding one unread message for the
viewer. -/
theorem unread_count_spec_witness :
    sendContactListUpdate
        ⟨[("alice", ⟨"pw", "A", ["B"]⟩), ("bob", ⟨"pw", "B", ["A"]⟩)],
         [("A-B", [⟨"id1", "B", "A", "hi", "t0", false⟩])]⟩ [("A", 1)] "A" =
      [Effect.send 1 (Event.contactList (contactDetails
        ⟨[("alice", ⟨"pw", "A", ["B"]⟩), ("bob", ⟨"pw", "B", ["A"]⟩)],
         [("A-B", [⟨"id1", "B", "A", "hi", "t0", false⟩])]⟩ [("A", 1)] "A" ["B"]))] ∧
    contactDetail
        ⟨[("alice", ⟨"pw", "A", ["B"]⟩), ("bob", ⟨"pw", "B", ["A"]⟩)],
         [("A-B", [⟨"id1", "B", "A", "hi", "t0", false⟩])]⟩ [("A", 1)] "A" "B" =
      some ⟨"bob", "B", (objGet [("A", 1)] "B").isSome,
            unreadCount ((objGet [("A-B", [⟨"id1", "B", "A", "hi", "t0", false⟩])]
              (getChatKey "A" "B")).getD []) "A"⟩ ∧
    (∀ d, contactDetail
        ⟨[("alice", ⟨"pw", "A", ["B"]⟩), ("bob", ⟨"pw", "B", ["A"]⟩)],
         [("A-B", [⟨"id1", "B", "A", "hi", "t0", false⟩])]⟩ [("A", 1)] "A" "B" = some d →
      d ∈ contactDetails
        ⟨[("alice", ⟨"pw", "A", ["B"]⟩), ("bob", ⟨"pw", "B", ["A"]⟩)],
         [("A-B", [⟨"id1", "B", "A", "hi", "t0", false⟩])]⟩ [("A", 1)] "A" ["B"]) ∧
    (∀ ws text freshId timestamp,
      unreadCount ((objGet ((handleSendMessage
          ⟨[("alice", ⟨"pw", "A", ["B"]⟩), ("bob", ⟨"pw", "B", ["A"]⟩)],
           [("A-B", [⟨"id1", "B", "A", "hi", "t0", false⟩])]⟩ [("A", 1)] ws "B" "A"
          text freshId timestamp).1).chats (getChatKey "A" "B")).getD []) "A" =
        unreadCount ((objGet [("A-B", [⟨"id1", "B", "A", "hi", "t0", false⟩])]
          (getChatKey "A" "B")).getD []) "A" + 1) ∧
    (∀ chat : List Message, (∀ m ∈ chat, m.receiver = "A" → m.read = true) →
      unreadCount chat "A" = 0) :=
  unread_count_spec
    ⟨[("alice", ⟨"pw", "A", ["B"]⟩), ("bob", ⟨"pw", "B", ["A"]⟩)],
     [("A-B", [⟨"id1", "B", "A", "hi", "t0", false⟩])]⟩ [("A", 1)] 1
    "A" "B" "alice" "bob" ⟨"pw", "A", ["B"]⟩ ⟨"pw", "B", ["A"]⟩
    rfl rfl (by decide) rfl

/-- C7 counterexample: at a concrete store, an `addContact` whose target code
matches no account is rejected with a plain `error` envelope — the trace
contains no `addContactError` event, contradicting the claim that the failure
reply is an `addContactError` envelope. -/
theorem addContact_error_envelope_counterexample :
    handleAddContact ⟨[("alice", ⟨"pw", "AAAAAA", []⟩)], []⟩ [] 7 "AAAAAA" "ZZZZZZ" =
      (⟨[("alice", ⟨"pw", "AAAAAA", []⟩)], []⟩,
       [Effect.send 7 (Event.errorEv "User with that code does not exist.")]) ∧
    ((handleAddContact ⟨[("alice", ⟨"pw", "AAAAAA", []⟩)], []⟩ [] 7
        "AAAAAA" "ZZZZZZ").2.all
      (fun e => match e with
        | Effect.send _ (Event.addContactError _) => false
        | _ => true)) = true := by
  decide

/-- C7 (amended): an `addContact` whose target code matches no account, or
whose target equals the requester's own code, is rejected with a single
`error{message}` envelope to the caller (not an `addContactError` envelope,
which the server never produces); the store is unchanged, nothing is
persisted, and no contact-list push or broadcast occurs. -/
theorem addContact_invalid_target_rejected (db : DB) (clients : Clients) (ws : Nat)
    (adderUserCode targetUserCode : String)
    (h : findUserByCode db.users targetUserCode = none ∨
      adderUserCode = targetUserCode) :
    ∃ msg, handleAddContact db clients ws adderUserCode targetUserCode =
      (db, [Effect.send ws (Event.errorEv msg)]) := by
  rcases h with h | h
  · exact ⟨"User with that code does not exist.", by simp [handleAddContact, h]⟩
  · subst h
    cases hf : findUserByCode db.users adderUserCode with
    | none =>
        exact ⟨"User with that code does not exist.", by simp [handleAddContact, hf]⟩
    | some p =>
        obtain ⟨n, u⟩ := p
        exact ⟨"You cannot add yourself as a contact.", by simp [handleAddContact, hf]⟩

/-- Witness for the amended C7 at a concrete store with an unknown target
code and at a concrete self-add. -/
theorem addContact_invalid_target_rejected_witness :
    ∃ msg, handleAddContact ⟨[("alice", ⟨"pw", "AAAAAA", []⟩)], []⟩ [] 9
        "AAAAAA" "AAAAAA" =
      (⟨[("alice", ⟨"pw", "AAAAAA", []⟩)], []⟩, [Effect.send 9 (Event.errorEv msg)]) :=
  addContact_invalid_target_rejected ⟨[("alice", ⟨"pw", "AAAAAA", []⟩)], []⟩ [] 9
    "AAAAAA" "AAAAAA" (Or.inr rfl)

/-- C5: evaluation of `handleSignup` on concrete inputs.  The candidate
strings stand for successive values of
`Math.random().toString(36).substring(2, 8).toUpperCase()`.  At the failing
random outcome `Math.random() = 0.5` that expression evaluates to the
one-character string `"I"` (since `(0.5).toString(36)` is `"0.i"`), and the
handler stores and returns this 1-character code, contradicting the
documented 6-character guarantee; the duplicate-username rejection, the
collision-retry loop, the empty contact set, the save-before-reply order, and
the absence of any connection-registry effect are as claimed. -/
theorem signup_code_generation_eval :
    handleSignup ⟨[], []⟩ 5 "alice" "pw" ["I"] =
      (⟨[("alice", ⟨"pw", "I", []⟩)], []⟩,
       [Effect.save ⟨[("alice", ⟨"pw", "I", []⟩)], []⟩,
        Effect.send 5 (Event.signupSuccess "I")]) ∧
    "I".length ≠ 6 ∧
    handleSignup ⟨[("alice", ⟨"pw", "I", []⟩)], []⟩ 5 "alice" "pw2" ["J"] =
      (⟨[("alice", ⟨"pw", "I", []⟩)], []⟩,
       [Effect.send 5 (Event.errorEv "Username already exists.")]) ∧
    handleSignup ⟨[("alice", ⟨"pw", "I", []⟩)], []⟩ 6 "bob" "pw" ["I", "J"] =
      (⟨[("alice", ⟨"pw", "I", []⟩), ("bob", ⟨"pw", "J", []⟩)], []⟩,
       [Effect.save ⟨[("alice", ⟨"pw", "I", []⟩), ("bob", ⟨"pw", "J", []⟩)], []⟩,
        Effect.send 6 (Event.signupSuccess "J")]) := by
  decide

/-- C6 counterexample: a reachable registry in which two codes are bound to
the same connection (one socket logged in twice).  Entry `("B", 1)` points at
the closing connection 1, yet after the close handler runs it is still
present — the handler deletes only the first matching code and then breaks,
contradicting the claim that every code whose entry points at that connection
is removed. -/
theorem close_multi_binding_counterexample :
    ("B", 1) ∈ ([("A", 1), ("B", 1)] : Clients) ∧
    (handleClose ⟨[("alice", ⟨"pw", "A", []⟩), ("bob", ⟨"pw", "B", []⟩)], []⟩
        [("A", 1), ("B", 1)] 1).1 = [("B", 1)] := by
  decide

/-- C6 (amended): when a transport connection closes, only the first code (in
registry insertion order) whose entry points at that connection is removed —
at most one code even if several are bound to the same connection.  For that
code, `isOnline` becomes false immediately, and the offline broadcast carries
exactly one `onlineStatus` event per online contact (one event for each entry
of the contact list whose code is online at that moment).  A close event for
a connection that no longer appears in the registry — in particular one whose
binding for the same code was superseded by a newer connection — removes
nothing and sends nothing. -/
theorem close_unbind_spec (db : DB) (clients : Clients) (conn : Nat)
    (code n : String) (u : User)
    (hnd : keysNodup clients)
    (hf : clients.find? (fun p => p.2 == conn) = some (code, conn))
    (hu : findUserByCode db.users code = some (n, u)) :
    (handleClose db clients conn).1 = mapDelete clients code ∧
    objGet (mapDelete clients code) code = none ∧
    (handleClose db clients conn).2 =
      broadcastOnlineStatus db (mapDelete clients code) code false ∧
    ((handleClose db clients conn).2).countP isOnlineStatusSend =
      (u.contacts.filter (fun c => (objGet (mapDelete clients code) c).isSome)).length ∧
    (∀ c ∈ u.contacts, ∀ cw, objGet (mapDelete clients code) c = some cw →
      Effect.send cw (Event.onlineStatus code false) ∈ (handleClose db clients conn).2) ∧
    (∀ clientsX : Clients, (∀ p ∈ clientsX, p.2 ≠ conn) →
      handleClose db clientsX conn = (clientsX, [])) ∧
    (∀ clientsX : Clients, ∀ code2 : String, ∀ conn2 : Nat, keysNodup clientsX →
      objGet clientsX code2 = some conn → conn2 ≠ conn →
      (∀ p ∈ clientsX, p.2 = conn → p.1 = code2) →
      handleClose db (objSet clientsX code2 conn2) conn =
        (objSet clientsX code2 conn2, [])) := by
  have h1 : (handleClose db clients conn).1 = mapDelete clients code := by
    simp [handleClose, hf]
  have h3 : (handleClose db clients conn).2 =
      broadcastOnlineStatus db (mapDelete clients code) code false := by
    simp [handleClose, hf]
  refine ⟨h1, objGet_mapDelete_self hnd, h3, ?_, ?_, ?_, ?_⟩
  · rw [h3]
    exact countP_onlineStatus_broadcast (mapDelete clients code) false hu
  · intro c hc cw hcw
    rw [h3]
    exact onlineStatus_mem_broadcast false hu hc hcw
  · intro clientsX hX
    have hnone : clientsX.find? (fun p => p.2 == conn) = none :=
      List.find?_eq_none.mpr (fun p hp => by simpa using hX p hp)
    simp [handleClose, hnone]
  · intro clientsX code2 conn2 hndX hget hne honly
    have hall : ∀ p ∈ objSet clientsX code2 conn2, p.2 ≠ conn := by
      intro p hp
      rcases mem_objSet_of_get hndX hget hp with h | h
      · rw [h]; exact hne
      · intro he
        exact h.2 (honly p h.1 he)
    have hnone : (objSet clientsX code2 conn2).find? (fun p => p.2 == conn) = none :=
      List.find?_eq_none.mpr (fun p hp => by simpa using hall p hp)
    simp [handleClose, hnone]

/-- Witness for the amended C6: one online user with one online contact
disconnects. -/
theorem close_unbind_spec_witness :
    (handleClose ⟨[("alice", ⟨"pw", "A", ["B"]⟩), ("bob", ⟨"pw", "B", ["A"]⟩)], []⟩
        [("A", 1), ("B", 2)] 1).1 = mapDelete [("A", 1), ("B", 2)] "A" ∧
    objGet (mapDelete [("A", 1), ("B", 2)] "A") "A" = none ∧
    (handleClose ⟨[("alice", ⟨"pw", "A", ["B"]⟩), ("bob", ⟨"pw", "B", ["A"]⟩)], []⟩
        [("A", 1), ("B", 2)] 1).2 =
      broadcastOnlineStatus
        ⟨[("alice", ⟨"pw", "A", ["B"]⟩), ("bob", ⟨"pw", "B", ["A"]⟩)], []⟩
        (mapDelete [("A", 1), ("B", 2)] "A") "A" false ∧
    ((handleClose ⟨[("alice", ⟨"pw", "A", ["B"]⟩), ("bob", ⟨"pw", "B", ["A"]⟩)], []⟩
        [("A", 1), ("B", 2)] 1).2).countP isOnlineStatusSend =
      (["B"].filter
        (fun c => (objGet (mapDelete [("A", 1), ("B", 2)] "A") c).isSome)).length ∧
    (∀ c ∈ (["B"] : List String), ∀ cw,
      objGet (mapDelete [("A", 1), ("B", 2)] "A") c = some cw →
      Effect.send cw (Event.onlineStatus "A" false) ∈
        (handleClose ⟨[("alice", ⟨"pw", "A", ["B"]⟩), ("bob", ⟨"pw", "B", ["A"]⟩)], []⟩
          [("A", 1), ("B", 2)] 1).2) ∧
    (∀ clientsX : Clients, (∀ p ∈ clientsX, p.2 ≠ 1) →
      handleClose ⟨[("alice", ⟨"pw", "A", ["B"]⟩), ("bob", ⟨"pw", "B", ["A"]⟩)], []⟩
        clientsX 1 = (clientsX, [])) ∧
    (∀ clientsX : Clients, ∀ code2 : String, ∀ conn2 : Nat, keysNodup clientsX →
      objGet clientsX code2 = some 1 → conn2 ≠ 1 →
      (∀ p ∈ clientsX, p.2 = 1 → p.1 = code2) →
      handleClose ⟨[("alice", ⟨"pw", "A", ["B"]⟩), ("bob", ⟨"pw", "B", ["A"]⟩)], []⟩
        (objSet clientsX code2 conn2) 1 = (objSet clientsX code2 conn2, [])) :=
  close_unbind_spec
    ⟨[("alice", ⟨"pw", "A", ["B"]⟩), ("bob", ⟨"pw", "B", ["A"]⟩)], []⟩
    [("A", 1), ("B", 2)] 1 "A" "alice" ⟨"pw", "A", ["B"]⟩
    (by decide) rfl rfl

/-- C4: for distinct existing accounts with codes A and B (unique usernames,
as JS object keys are), a successful `addContact(A, B)` leaves B in A's
contact set and A in B's contact set in the same operation, and repeating
`addContact(A, B)` or performing `addContact(B, A)` afterwards leaves the
whole store unchanged (symmetric and idempotent, no half-edges). -/
theorem addContact_symmetric_idempotent (db : DB) (clients : Clients)
    (ws ws2 ws3 : Nat) (A B ua ub : String) (uA uB : User)
    (hnd : keysNodup db.users)
    (hA : findUserByCode db.users A = some (ua, uA))
    (hB : findUserByCode db.users B = some (ub, uB))
    (hne : A ≠ B) :
    (∃ u1, findUserByCode ((handleAddContact db clients ws A B).1).users A =
        some (ua, u1) ∧ B ∈ u1.contacts) ∧
    (∃ u2, findUserByCode ((handleAddContact db clients ws A B).1).users B =
        some (ub, u2) ∧ A ∈ u2.contacts) ∧
    (handleAddContact (handleAddContact db clients ws A B).1 clients ws2 A B).1 =
      (handleAddContact db clients ws A B).1 ∧
    (handleAddContact (handleAddContact db clients ws A B).1 clients ws3 B A).1 =
      (handleAddContact db clients ws A B).1 := by
  have hcA : uA.userCode = A := findUserByCode_code hA
  have hcB : uB.userCode = B := findUserByCode_code hB
  have hgA : objGet db.users ua = some uA := objGet_of_mem hnd (findUserByCode_mem hA)
  have hgB : objGet db.users ub = some uB := objGet_of_mem hnd (findUserByCode_mem hB)
  have huab : ua ≠ ub := by
    intro he
    rw [he] at hgA
    have h2 : uA = uB := Option.some.inj (hgA.symm.trans hgB)
    exact hne (by rw [← hcA, h2, hcB])
  have hB1 : B ∈ (if B ∈ uA.contacts then uA
      else { uA with contacts := uA.contacts ++ [B] }).contacts := by
    by_cases h : B ∈ uA.contacts
    · simp [h]
    · simp [h]
  have hA1 : A ∈ (if A ∈ uB.contacts then uB
      else { uB with contacts := uB.contacts ++ [A] }).contacts := by
    by_cases h : A ∈ uB.contacts
    · simp [h]
    · simp [h]
  have hcA1 : (if B ∈ uA.contacts then uA
      else { uA with contacts := uA.contacts ++ [B] }).userCode = A := by
    by_cases h : B ∈ uA.contacts <;> simp [h, hcA]
  have hcB1 : (if A ∈ uB.contacts then uB
      else { uB with contacts := uB.contacts ++ [A] }).userCode = B := by
    by_cases h : A ∈ uB.contacts <;> simp [h, hcB]
  have husers1 : (if B ∈ uA.contacts then db.users
      else objSet db.users ua { uA with contacts := uA.contacts ++ [B] }) =
      objSet db.users ua (if B ∈ uA.contacts then uA
        else { uA with contacts := uA.contacts ++ [B] }) := by
    by_cases h : B ∈ uA.contacts
    · simp [h, objSet_eq_self hgA]
    · simp [h]
  have hget1 : objGet (if B ∈ uA.contacts then db.users
      else objSet db.users ua { uA with contacts := uA.contacts ++ [B] }) ub =
      some uB := by
    by_cases h : B ∈ uA.contacts
    · simpa [h] using hgB
    · rw [if_neg h, objGet_objSet_ne db.users ua ub _ (Ne.symm huab)]
      exact hgB
  have hstep : ∀ ws0 : Nat, (handleAddContact db clients ws0 A B).1 =
      { db with users := (objSet
          (if B ∈ uA.contacts then db.users
           else objSet db.users ua { uA with contacts := uA.contacts ++ [B] }) ub
          (if A ∈ uB.contacts then uB
           else { uB with contacts := uB.contacts ++ [A] })) } := by
    intro ws0
    simp only [handleAddContact, hB, hA, hget1]
    rw [if_neg hne]
    by_cases h2 : A ∈ uB.contacts
    · simp [h2, objSet_eq_self hget1]
    · simp [h2]
  have hget1e : objGet (objSet db.users ua (if B ∈ uA.contacts then uA
      else { uA with contacts := uA.contacts ++ [B] })) ub = some uB := by
    rw [← husers1]; exact hget1
  have hwB : uB.userCode ≠ A := by rw [hcB]; exact Ne.symm hne
  have hvB : (if A ∈ uB.contacts then uB
      else { uB with contacts := uB.contacts ++ [A] }).userCode ≠ A := by
    rw [hcB1]; exact Ne.symm hne
  have hwA : uA.userCode ≠ B := by rw [hcA]; exact hne
  have hvA : (if B ∈ uA.contacts then uA
      else { uA with contacts := uA.contacts ++ [B] }).userCode ≠ B := by
    rw [hcA1]; exact hne
  have hfa : findUserByCode ((handleAddContact db clients ws A B).1).users A =
      some (ua, (if B ∈ uA.contacts then uA
        else { uA with contacts := uA.contacts ++ [B] })) := by
    rw [hstep ws]
    show findUserByCode (objSet (if B ∈ uA.contacts then db.users
      else objSet db.users ua { uA with contacts := uA.contacts ++ [B] }) ub
      (if A ∈ uB.contacts then uB else { uB with contacts := uB.contacts ++ [A] })) A =
      _
    rw [husers1, findUserByCode_objSet_preserve hget1e hwB hvB]
    exact findUserByCode_objSet_found hnd hA hcA1
  have hnd1 : keysNodup (objSet db.users ua (if B ∈ uA.contacts then uA
      else { uA with contacts := uA.contacts ++ [B] })) := keysNodup_objSet hnd
  have hfB1 : findUserByCode (objSet db.users ua (if B ∈ uA.contacts then uA
      else { uA with contacts := uA.contacts ++ [B] })) B = some (ub, uB) := by
    rw [findUserByCode_objSet_preserve hgA hwA hvA]
    exact hB
  have hfb : findUserByCode ((handleAddContact db clients ws A B).1).users B =
      some (ub, (if A ∈ uB.contacts then uB
        else { uB with contacts := uB.contacts ++ [A] })) := by
    rw [hstep ws]
    show findUserByCode (objSet (if B ∈ uA.contacts then db.users
      else objSet db.users ua { uA with contacts := uA.contacts ++ [B] }) ub
      (if A ∈ uB.contacts then uB else { uB with contacts := uB.contacts ++ [A] })) B =
      _
    rw [husers1]
    exact findUserByCode_objSet_found hnd1 hfB1 hcB1
  have hgub1 : objGet ((handleAddContact db clients ws A B).1).users ub =
      some (if A ∈ uB.contacts then uB
        else { uB with contacts := uB.contacts ++ [A] }) := by
    rw [hstep ws]
    show objGet (objSet (if B ∈ uA.contacts then db.users
      else objSet db.users ua { uA with contacts := uA.contacts ++ [B] }) ub
      (if A ∈ uB.contacts then uB else { uB with contacts := uB.contacts ++ [A] })) ub =
      _
    exact objGet_objSet_self _ ub _
  have hgua1 : objGet ((handleAddContact db clients ws A B).1).users ua =
      some (if B ∈ uA.contacts then uA
        else { uA with contacts := uA.contacts ++ [B] }) := by
    rw [hstep ws]
    show objGet (objSet (if B ∈ uA.contacts then db.users
      else objSet db.users ua { uA with contacts := uA.contacts ++ [B] }) ub
      (if A ∈ uB.contacts then uB else { uB with contacts := uB.contacts ++ [A] })) ua =
      _
    rw [husers1, objGet_objSet_ne _ ub ua _ huab]
    exact objGet_objSet_self _ ua _
  obtain ⟨db1, hdb1⟩ : ∃ d : DB, (handleAddContact db clients ws A B).1 = d := ⟨_, rfl⟩
  rw [hdb1] at hfa hfb hgub1 hgua1
  rw [hdb1]
  have hneBA : ¬ B = A := Ne.symm hne
  refine ⟨⟨_, hfa, hB1⟩, ⟨_, hfb, hA1⟩, ?_, ?_⟩
  · simp [handleAddContact, hfb, hfa, hgub1, hne, hB1, hA1]
  · simp [handleAddContact, hfa, hfb, hgua1, hneBA, hA1, hB1]

/-- Witness for C4: two fresh accounts add each other. -/
theorem addContact_symmetric_idempotent_witness :
    (∃ u1, findUserByCode ((handleAddContact
        ⟨[("alice", ⟨"pw", "A", []⟩), ("bob", ⟨"pw", "B", []⟩)], []⟩ [] 0
        "A" "B").1).users "A" = some ("alice", u1) ∧ "B" ∈ u1.contacts) ∧
    (∃ u2, findUserByCode ((handleAddContact
        ⟨[("alice", ⟨"pw", "A", []⟩), ("bob", ⟨"pw", "B", []⟩)], []⟩ [] 0
        "A" "B").1).users "B" = some ("bob", u2) ∧ "A" ∈ u2.contacts) ∧
    (handleAddContact (handleAddContact
        ⟨[("alice", ⟨"pw", "A", []⟩), ("bob", ⟨"pw", "B", []⟩)], []⟩ [] 0
        "A" "B").1 [] 1 "A" "B").1 =
      (handleAddContact
        ⟨[("alice", ⟨"pw", "A", []⟩), ("bob", ⟨"pw", "B", []⟩)], []⟩ [] 0
        "A" "B").1 ∧
    (handleAddContact (handleAddContact
        ⟨[("alice", ⟨"pw", "A", []⟩), ("bob", ⟨"pw", "B", []⟩)], []⟩ [] 0
        "A" "B").1 [] 2 "B" "A").1 =
      (handleAddContact
        ⟨[("alice", ⟨"pw", "A", []⟩), ("bob", ⟨"pw", "B", []⟩)], []⟩ [] 0
        "A" "B").1 :=
  addContact_symmetric_idempotent
    ⟨[("alice", ⟨"pw", "A", []⟩), ("bob", ⟨"pw", "B", []⟩)], []⟩ [] 0 1 2
    "A" "B" "alice" "bob" ⟨"pw", "A", []⟩ ⟨"pw", "B", []⟩
    (by decide) rfl rfl (by decide)

end MyChat
